import Mathlib

/-!
Verification of the command-line configuration resolver of SLIM's
slim_predict program (src/programs/cmdline_predict.c, function
parse_cmdline).

Modelling conventions:

* The GKlib option scanner gk_getopt_long_only (an external library,
  not part of this repository's sources) is abstracted by its
  observable output: the sequence of option events it delivers to the
  switch statement inside the option loop (OptEvent), together with
  the list of positional tokens argv[gk_optind .. argc-1] that remain
  after the loop.  parse_cmdline itself — the switch bodies, the
  positional-count guard, the positional consumption and the
  existence checks — is translated statement by statement.

* The filesystem check gk_fexists is abstracted as a predicate
  fexists : String → Bool.

* Process termination (exit / errexit) is modelled by returning a
  terminal ParseResult instead of a params_t.  Reading argv at an
  index for which no positional token was supplied (argv[argc] and
  beyond) is modelled by the terminal result oobRead, carrying the
  parameter record as populated at the moment of the read.

* C int values are modelled as unbounded Int (the claims only involve
  small values, far from overflow).
-/

/-- Format codes from GKlib's gk_defs.h (external library header):
GK_CSR_FMT_CLUTO. -/
def GK_CSR_FMT_CLUTO : Int := 1

/-- GKlib format code GK_CSR_FMT_CSR. -/
def GK_CSR_FMT_CSR : Int := 2

/-- GKlib format code GK_CSR_FMT_METIS (used by the source as the
transient marker for the no-ratings CSR variant). -/
def GK_CSR_FMT_METIS : Int := 3

/-- GKlib format code GK_CSR_FMT_IJV. -/
def GK_CSR_FMT_IJV : Int := 6

/-- The params_t record populated by parse_cmdline.  char* fields that
may stay NULL become Option String. -/
structure params_t where
  ifmt : Int
  readvals : Int
  binarize : Int
  outfile : Option String
  tstfile : Option String
  nrcmds : Int
  dbglvl : Int
  mdlfile : Option String
  trnfile : Option String
  deriving DecidableEq, Repr

/-- The defaults set at the top of parse_cmdline (lines 96-102);
mdlfile and trnfile stay NULL from the preceding memset. -/
def defaultParams : params_t :=
  { ifmt := GK_CSR_FMT_CSR
    readvals := 1
    binarize := 0
    outfile := none
    tstfile := none
    nrcmds := 10
    dbglvl := 0
    mdlfile := none
    trnfile := none }

/-- The ifmt_options string map of the source file (lines 26-31). -/
def ifmt_options : List (String × Int) :=
  [("csr", GK_CSR_FMT_CSR),
   ("csrnv", GK_CSR_FMT_METIS),
   ("cluto", GK_CSR_FMT_CLUTO),
   ("ijv", GK_CSR_FMT_IJV)]

/-- Modelled from the spec: GKlib's gk_GetStringID (external library)
looks the supplied value up in the enumeration map and returns -1 on a
miss; the spec's Enumeration Map maps the exact symbolic names
"csr", "csrnv", "cluto", "ijv" to format codes, so the lookup is
modelled as exact string matching. -/
def gk_GetStringID : List (String × Int) → String → Int
  | [], _ => -1
  | (k, v) :: rest, s => if k = s then v else gk_GetStringID rest s

/-- C whitespace as skipped by atoi (isspace in the "C" locale). -/
def isSpaceC (c : Char) : Bool :=
  c = ' ' || c = '\t' || c = '\n' || c = '\x0b' || c = '\x0c' || c = '\r'

/-- Drop the leading C whitespace of a character list. -/
def dropSpacesC : List Char → List Char
  | [] => []
  | c :: cs => if isSpaceC c then dropSpacesC cs else c :: cs

/-- Accumulate leading decimal digits, stopping at the first
non-digit, as atoi does. -/
def atoiLoop : List Char → Int → Int
  | [], acc => acc
  | c :: cs, acc =>
    if c.isDigit then atoiLoop cs (acc * 10 + ((c.toNat : Int) - 48)) else acc

/-- C standard library atoi: skip whitespace, read an optional sign,
then accumulate leading digits; a string with no leading digits
converts to 0.  Overflow (undefined in C) is not modelled: values are
unbounded. -/
def atoi (s : String) : Int :=
  match dropSpacesC s.toList with
  | [] => 0
  | c :: rest =>
    if c = '-' then - atoiLoop rest 0
    else if c = '+' then atoiLoop rest 0
    else atoiLoop (c :: rest) 0

/-- One iteration's worth of output from gk_getopt_long_only as seen
by the switch in the option loop: a recognized option together with
its gk_optarg value, the CMD_HELP code, the character c = qmark
returned for an unrecognized or malformed option, or any other code
(the switch's default arm, with the current gk_optarg). -/
inductive OptEvent where
  | ifmt (v : String)
  | binarize
  | outfile (v : String)
  | nrcmds (v : String)
  | dbglvl (v : String)
  | help
  | unknown
  | illegal (v : Option String)
  deriving DecidableEq, Repr

/-- A run of parse_cmdline either returns a populated params_t or
terminates: helpExit is the printf(helpstr)/exit(0) arm shared by
CMD_HELP and the unknown-option code, illegalExit the switch's default
arm (also exit(0)), shortHelpExit the wrong-positional-count
printf(shorthelpstr)/exit(0), errExit a fatal errexit with its
message, and oobRead an argv read past the last supplied token. -/
inductive ParseResult where
  | ok (p : params_t)
  | helpExit
  | illegalExit (v : Option String)
  | shortHelpExit
  | errExit (msg : String)
  | oobRead (p : params_t)
  deriving DecidableEq, Repr

/-- The body of the switch statement (lines 106-144) for one option
event: either the updated params or a terminal result. -/
def applyEvent (p : params_t) (e : OptEvent) : Except ParseResult params_t :=
  match e with
  | OptEvent.ifmt v =>
    let id := gk_GetStringID ifmt_options v
    if id = -1 then
      Except.error (ParseResult.errExit ("Invalid -ifmt of " ++ v ++ ".\n"))
    else if id = GK_CSR_FMT_METIS then
      Except.ok { p with ifmt := GK_CSR_FMT_CSR, readvals := 0 }
    else
      Except.ok { p with ifmt := id }
  | OptEvent.binarize => Except.ok { p with binarize := 1 }
  | OptEvent.outfile v => Except.ok { p with outfile := some v }
  | OptEvent.nrcmds v =>
    let n := atoi v
    if n < 0 then
      Except.error (ParseResult.errExit "The -nrcmds parameter should be non-negative.\n")
    else
      Except.ok { p with nrcmds := n }
  | OptEvent.dbglvl v =>
    let n := atoi v
    if n < 0 then
      Except.error (ParseResult.errExit "The -dbglvl parameter should be non-negative.\n")
    else
      Except.ok { p with dbglvl := n }
  | OptEvent.help => Except.error ParseResult.helpExit
  | OptEvent.unknown => Except.error ParseResult.helpExit
  | OptEvent.illegal v => Except.error (ParseResult.illegalExit v)

/-- The option loop (lines 104-145): fold applyEvent over the event
stream, stopping at the first terminal result. -/
def optLoop : params_t → List OptEvent → Except ParseResult params_t
  | p, [] => Except.ok p
  | p, e :: es =>
    match applyEvent p e with
    | Except.ok q => optLoop q es
    | Except.error r => Except.error r

/-- The positional-argument phase (lines 147-168).  pos is
argv[gk_optind .. argc-1] after the loop; the count guard is
argc - gk_optind < 1 or > 3; each consumed token is assigned and then
checked for existence; an argv read past the supplied tokens is the
terminal oobRead. -/
def positionalPhase (fexists : String → Bool) (p : params_t)
    (pos : List String) : ParseResult :=
  if pos.length < 1 ∨ pos.length > 3 then
    ParseResult.shortHelpExit
  else
    match pos.get? 0 with
    | none => ParseResult.oobRead p
    | some mdl =>
      let p1 := { p with mdlfile := some mdl }
      if fexists mdl = false then
        ParseResult.errExit ("Input model file " ++ mdl ++ " does not exist.\n")
      else
        match pos.get? 1 with
        | none => ParseResult.oobRead p1
        | some trn =>
          let p2 := { p1 with trnfile := some trn }
          if fexists trn = false then
            ParseResult.errExit ("Input old file " ++ trn ++ " does not exist.\n")
          else
            if pos.length - 2 = 1 then
              match pos.get? 2 with
              | none => ParseResult.oobRead p2
              | some tst =>
                let p3 := { p2 with tstfile := some tst }
                if fexists tst = false then
                  ParseResult.errExit ("Input test file " ++ tst ++ " does not exist.\n")
                else
                  ParseResult.ok p3
            else
              ParseResult.ok p2

/-- parse_cmdline (lines 88-169): defaults, option loop, then the
positional phase. -/
def parse_cmdline (fexists : String → Bool) (events : List OptEvent)
    (pos : List String) : ParseResult :=
  match optLoop defaultParams events with
  | Except.error r => r
  | Except.ok p => positionalPhase fexists p pos

/-- Running the option loop on a concatenation whose first part
succeeds continues from the intermediate state. -/
theorem optLoop_append_ok {p q : params_t} {xs : List OptEvent} (ys : List OptEvent)
    (h : optLoop p xs = Except.ok q) :
    optLoop p (xs ++ ys) = optLoop q ys := by
  induction xs generalizing p with
  | nil =>
    simp only [optLoop, Except.ok.injEq] at h
    subst h
    rfl
  | cons e es ih =>
    simp only [optLoop, List.cons_append] at h ⊢
    cases he : applyEvent p e with
    | error r => rw [he] at h; simp at h
    | ok m => rw [he] at h; exact ih h

/-- A successful run of the option loop on a concatenation factors
through a successful run on the first part. -/
theorem optLoop_append_split {p q : params_t} {xs ys : List OptEvent}
    (h : optLoop p (xs ++ ys) = Except.ok q) :
    ∃ m, optLoop p xs = Except.ok m ∧ optLoop m ys = Except.ok q := by
  induction xs generalizing p with
  | nil => exact ⟨p, rfl, h⟩
  | cons e es ih =>
    simp only [optLoop, List.cons_append] at h ⊢
    cases he : applyEvent p e with
    | error r => rw [he] at h; simp at h
    | ok m => rw [he] at h; exact ih h

/-- Per-event invariants of the switch bodies: no option assigns
mdlfile, trnfile or tstfile; once readvals is 0 no option makes it
nonzero again; and only an ifmt event changes ifmt. -/
theorem applyEvent_ok_cases {p q : params_t} {e : OptEvent}
    (h : applyEvent p e = Except.ok q) :
    q.tstfile = p.tstfile ∧ q.mdlfile = p.mdlfile ∧ q.trnfile = p.trnfile ∧
    (p.readvals = 0 → q.readvals = 0) ∧
    ((∀ v, e ≠ OptEvent.ifmt v) → q.ifmt = p.ifmt) := by
  cases e with
  | ifmt v =>
    simp only [applyEvent] at h
    split at h
    · simp at h
    · split at h
      · simp only [Except.ok.injEq] at h
        subst h
        exact ⟨rfl, rfl, rfl, fun _ => rfl, fun hne => absurd rfl (hne v)⟩
      · simp only [Except.ok.injEq] at h
        subst h
        exact ⟨rfl, rfl, rfl, fun hz => hz, fun hne => absurd rfl (hne v)⟩
  | binarize =>
    simp only [applyEvent, Except.ok.injEq] at h
    subst h
    exact ⟨rfl, rfl, rfl, fun hz => hz, fun _ => rfl⟩
  | outfile v =>
    simp only [applyEvent, Except.ok.injEq] at h
    subst h
    exact ⟨rfl, rfl, rfl, fun hz => hz, fun _ => rfl⟩
  | nrcmds v =>
    simp only [applyEvent] at h
    split at h
    · simp at h
    · simp only [Except.ok.injEq] at h
      subst h
      exact ⟨rfl, rfl, rfl, fun hz => hz, fun _ => rfl⟩
  | dbglvl v =>
    simp only [applyEvent] at h
    split at h
    · simp at h
    · simp only [Except.ok.injEq] at h
      subst h
      exact ⟨rfl, rfl, rfl, fun hz => hz, fun _ => rfl⟩
  | help => simp [applyEvent] at h
  | unknown => simp [applyEvent] at h
  | illegal v => simp [applyEvent] at h

/-- The loop-level invariants obtained by folding applyEvent_ok_cases
over the event stream. -/
theorem optLoop_ok_invariant {es : List OptEvent} {p q : params_t}
    (h : optLoop p es = Except.ok q) :
    q.tstfile = p.tstfile ∧ q.mdlfile = p.mdlfile ∧ q.trnfile = p.trnfile ∧
    (p.readvals = 0 → q.readvals = 0) ∧
    ((∀ v, OptEvent.ifmt v ∉ es) → q.ifmt = p.ifmt) := by
  induction es generalizing p with
  | nil =>
    simp only [optLoop, Except.ok.injEq] at h
    subst h
    exact ⟨rfl, rfl, rfl, fun hz => hz, fun _ => rfl⟩
  | cons e rest ih =>
    simp only [optLoop] at h
    cases he : applyEvent p e with
    | error r => rw [he] at h; simp at h
    | ok m =>
      rw [he] at h
      obtain ⟨t1, m1, r1, z1, f1⟩ := applyEvent_ok_cases he
      obtain ⟨t2, m2, r2, z2, f2⟩ := ih h
      refine ⟨t2.trans t1, m2.trans m1, r2.trans r1, fun hz => z2 (z1 hz), fun hni => ?_⟩
      have hq : q.ifmt = m.ifmt := f2 (fun v hv => hni v (List.mem_cons_of_mem _ hv))
      have hm : m.ifmt = p.ifmt := f1 (fun v hveq => hni v (by rw [← hveq]; exact List.mem_cons_self e rest))
      exact hq.trans hm

/-- The terminal results produced inside the option loop are never
the ok constructor. -/
theorem applyEvent_error_not_ok {p : params_t} {e : OptEvent} {r : ParseResult}
    (h : applyEvent p e = Except.error r) (q : params_t) : r ≠ ParseResult.ok q := by
  cases e with
  | ifmt v =>
    simp only [applyEvent] at h
    split at h
    · simp only [Except.error.injEq] at h
      subst h
      simp
    · split at h
      · simp at h
      · simp at h
  | binarize => simp [applyEvent] at h
  | outfile v => simp [applyEvent] at h
  | nrcmds v =>
    simp only [applyEvent] at h
    split at h
    · simp only [Except.error.injEq] at h; subst h; simp
    · simp at h
  | dbglvl v =>
    simp only [applyEvent] at h
    split at h
    · simp only [Except.error.injEq] at h; subst h; simp
    · simp at h
  | help => simp only [applyEvent, Except.error.injEq] at h; subst h; simp
  | unknown => simp only [applyEvent, Except.error.injEq] at h; subst h; simp
  | illegal v => simp only [applyEvent, Except.error.injEq] at h; subst h; simp

/-- An early exit of the option loop is never the ok constructor. -/
theorem optLoop_error_not_ok {p : params_t} {es : List OptEvent} {r : ParseResult}
    (h : optLoop p es = Except.error r) (q : params_t) : r ≠ ParseResult.ok q := by
  induction es generalizing p with
  | nil => simp [optLoop] at h
  | cons e rest ih =>
    simp only [optLoop] at h
    cases he : applyEvent p e with
    | error r2 =>
      rw [he] at h
      simp only [Except.error.injEq] at h
      subst h
      exact applyEvent_error_not_ok he q
    | ok m => rw [he] at h; exact ih h

/-- parse_cmdline forwards an early exit of the option loop. -/
theorem parse_eq_of_optLoop_error {fexists : String → Bool} {events : List OptEvent}
    {pos : List String} {r : ParseResult}
    (h : optLoop defaultParams events = Except.error r) :
    parse_cmdline fexists events pos = r := by
  unfold parse_cmdline
  rw [h]

/-- parse_cmdline continues into the positional phase when the option
loop succeeds. -/
theorem parse_eq_of_optLoop_ok {fexists : String → Bool} {events : List OptEvent}
    {pos : List String} {p : params_t}
    (h : optLoop defaultParams events = Except.ok p) :
    parse_cmdline fexists events pos = positionalPhase fexists p pos := by
  unfold parse_cmdline
  rw [h]

/-- A successful parse factors into a successful option loop and a
successful positional phase. -/
theorem parse_ok_split {fexists : String → Bool} {events : List OptEvent}
    {pos : List String} {q : params_t}
    (h : parse_cmdline fexists events pos = ParseResult.ok q) :
    ∃ p, optLoop defaultParams events = Except.ok p ∧
      positionalPhase fexists p pos = ParseResult.ok q := by
  unfold parse_cmdline at h
  cases hl : optLoop defaultParams events with
  | error r => rw [hl] at h; exact absurd h (optLoop_error_not_ok hl q)
  | ok p => rw [hl] at h; exact ⟨p, rfl, h⟩

/-- The positional phase with no positional token prints the short
usage text and exits. -/
theorem positionalPhase_nil_eq (fexists : String → Bool) (p : params_t) :
    positionalPhase fexists p [] = ParseResult.shortHelpExit := rfl

/-- The positional phase with one token passes the count guard,
consumes the token as the model file, and then reads argv out of
bounds for the training file (unless the model file is missing, which
is fatal first). -/
theorem positionalPhase_one_eq (fexists : String → Bool) (p : params_t) (a : String) :
    positionalPhase fexists p [a] =
      if fexists a = false then
        ParseResult.errExit ("Input model file " ++ a ++ " does not exist.\n")
      else
        ParseResult.oobRead { p with mdlfile := some a } := rfl

/-- The positional phase with two tokens: model file then training
file, each checked in turn. -/
theorem positionalPhase_two_eq (fexists : String → Bool) (p : params_t) (a b : String) :
    positionalPhase fexists p [a, b] =
      if fexists a = false then
        ParseResult.errExit ("Input model file " ++ a ++ " does not exist.\n")
      else if fexists b = false then
        ParseResult.errExit ("Input old file " ++ b ++ " does not exist.\n")
      else
        ParseResult.ok { p with mdlfile := some a, trnfile := some b } := rfl

/-- The positional phase with three tokens: model, training, then
test file, each checked in turn. -/
theorem positionalPhase_three_eq (fexists : String → Bool) (p : params_t) (a b c : String) :
    positionalPhase fexists p [a, b, c] =
      if fexists a = false then
        ParseResult.errExit ("Input model file " ++ a ++ " does not exist.\n")
      else if fexists b = false then
        ParseResult.errExit ("Input old file " ++ b ++ " does not exist.\n")
      else if fexists c = false then
        ParseResult.errExit ("Input test file " ++ c ++ " does not exist.\n")
      else
        ParseResult.ok { p with mdlfile := some a, trnfile := some b, tstfile := some c } := rfl

/-- The positional phase with four or more tokens prints the short
usage text and exits. -/
theorem positionalPhase_many_eq (fexists : String → Bool) (p : params_t)
    (a b c d : String) (rest : List String) :
    positionalPhase fexists p (a :: b :: c :: d :: rest) = ParseResult.shortHelpExit := by
  have hlen : (a :: b :: c :: d :: rest).length > 3 := by
    simp only [List.length_cons]
    omega
  unfold positionalPhase
  rw [if_pos (Or.inr hlen)]

/-- The positional phase only assigns the three file fields: every
other field of a successfully returned configuration is the one the
option loop produced. -/
theorem positionalPhase_ok_base {fexists : String → Bool} {p q : params_t}
    {pos : List String} (h : positionalPhase fexists p pos = ParseResult.ok q) :
    q.ifmt = p.ifmt ∧ q.readvals = p.readvals ∧ q.binarize = p.binarize ∧
    q.nrcmds = p.nrcmds ∧ q.dbglvl = p.dbglvl ∧ q.outfile = p.outfile := by
  match pos with
  | [] => rw [positionalPhase_nil_eq] at h; simp at h
  | [a] =>
    rw [positionalPhase_one_eq] at h
    split_ifs at h
  | [a, b] =>
    rw [positionalPhase_two_eq] at h
    split_ifs at h
    simp only [ParseResult.ok.injEq] at h
    subst h
    exact ⟨rfl, rfl, rfl, rfl, rfl, rfl⟩
  | [a, b, c] =>
    rw [positionalPhase_three_eq] at h
    split_ifs at h
    simp only [ParseResult.ok.injEq] at h
    subst h
    exact ⟨rfl, rfl, rfl, rfl, rfl, rfl⟩
  | a :: b :: c :: d :: rest =>
    rw [positionalPhase_many_eq] at h
    simp at h

/-- With exactly two positional tokens the positional phase leaves
the test-file field untouched. -/
theorem positionalPhase_ok_two {fexists : String → Bool} {p q : params_t}
    {pos : List String} (h2 : pos.length = 2)
    (h : positionalPhase fexists p pos = ParseResult.ok q) :
    q.tstfile = p.tstfile := by
  cases pos with
  | nil => simp at h2
  | cons a rest =>
    cases rest with
    | nil => simp at h2
    | cons b rest2 =>
      cases rest2 with
      | cons c rest3 =>
        simp only [List.length_cons] at h2
        omega
      | nil =>
        rw [positionalPhase_two_eq] at h
        split_ifs at h
        simp only [ParseResult.ok.injEq] at h
        subst h
        rfl

/-- Elements of the whitespace-stripped list come from the original
list. -/
theorem dropSpacesC_subset {cs : List Char} {c : Char}
    (h : c ∈ dropSpacesC cs) : c ∈ cs := by
  induction cs with
  | nil => simp [dropSpacesC] at h
  | cons a rest ih =>
    simp only [dropSpacesC] at h
    split at h
    · exact List.mem_cons_of_mem a (ih h)
    · exact h

/-- The digit accumulator returns its accumulator unchanged when the
list starts with a non-digit. -/
theorem atoiLoop_no_digit {cs : List Char}
    (h : ∀ c ∈ cs, c.isDigit = false) : atoiLoop cs 0 = 0 := by
  cases cs with
  | nil => rfl
  | cons c rest =>
    simp only [atoiLoop]
    rw [h c (List.mem_cons_self c rest)]
    simp

/-- atoi of a string containing no decimal digit is 0. -/
theorem atoi_no_digit {s : String} (h : ∀ c ∈ s.toList, c.isDigit = false) :
    atoi s = 0 := by
  have hsub : ∀ c ∈ dropSpacesC s.toList, c.isDigit = false :=
    fun c hc => h c (dropSpacesC_subset hc)
  unfold atoi
  cases hd : dropSpacesC s.toList with
  | nil => rfl
  | cons c rest =>
    have hall : ∀ x ∈ c :: rest, x.isDigit = false := by
      rw [← hd]; exact hsub
    have hrest : ∀ x ∈ rest, x.isDigit = false :=
      fun x hx => hall x (List.mem_cons_of_mem c hx)
    show (if c = '-' then - atoiLoop rest 0
          else if c = '+' then atoiLoop rest 0
          else atoiLoop (c :: rest) 0) = 0
    split_ifs
    · simp [atoiLoop_no_digit hrest]
    · exact atoiLoop_no_digit hrest
    · exact atoiLoop_no_digit hall

/-- C1: the claim states the resolver accepts exactly 2 or 3
remaining positional tokens and prints the short usage text for
counts 0, 1, or more than 3.  The code's guard (line 148,
argc - gk_optind < 1 || argc - gk_optind > 3) does print the short
usage for 0 and for 4 or more tokens, but it admits a count of
exactly 1: the single token is consumed as the model file and the
resolver then reads argv past the last supplied token instead of
printing the usage text. -/
theorem C1_positional_guard_admits_one :
    parse_cmdline (fun _ => true) [] [] = ParseResult.shortHelpExit
    ∧ parse_cmdline (fun _ => true) [] ["a", "b", "c", "d"] = ParseResult.shortHelpExit
    ∧ parse_cmdline (fun _ => true) [] ["model.bin"] =
        ParseResult.oobRead { defaultParams with mdlfile := some "model.bin" }
    ∧ parse_cmdline (fun _ => true) [] ["model.bin"] ≠ ParseResult.shortHelpExit := by
  refine ⟨rfl, rfl, rfl, ?_⟩
  decide

/-- C2: an option loop that leaves exactly one positional token
passes the count guard (which rejects only counts below 1 or above
3), the single token is consumed as the model file, and the read for
the training file then indexes the argument vector past the last
supplied token. -/
theorem C2_single_token_oob_read :
    parse_cmdline (fun _ => true) [] ["only.mdl"] =
      ParseResult.oobRead { defaultParams with mdlfile := some "only.mdl" }
    ∧ parse_cmdline (fun _ => true) [] ["only.mdl"] ≠ ParseResult.shortHelpExit := by
  refine ⟨rfl, ?_⟩
  decide

/-- C3: an invocation whose option loop succeeds and leaves exactly
2 or 3 positional tokens, all naming existing files, resolves
successfully and assigns the tokens strictly in order: first to
mdlfile, second to trnfile, optional third to tstfile; with only two
tokens tstfile stays absent. -/
theorem C3_positional_assignment_order (fexists : String → Bool)
    (events : List OptEvent) (p : params_t) (m t : String) (ts : Option String)
    (hloop : optLoop defaultParams events = Except.ok p)
    (hm : fexists m = true) (ht : fexists t = true)
    (hts : ∀ s, ts = some s → fexists s = true) :
    parse_cmdline fexists events (m :: t :: ts.toList) =
      ParseResult.ok { p with mdlfile := some m, trnfile := some t, tstfile := ts } := by
  have htst : p.tstfile = none := (optLoop_ok_invariant hloop).1
  rw [parse_eq_of_optLoop_ok hloop]
  cases ts with
  | none =>
    show positionalPhase fexists p [m, t] = _
    rw [positionalPhase_two_eq]
    simp only [hm, Bool.true_eq_false, if_false, ht]
    rw [← htst]
  | some s =>
    have hs := hts s rfl
    show positionalPhase fexists p [m, t, s] = _
    rw [positionalPhase_three_eq]
    simp only [hm, ht, hs, Bool.true_eq_false, if_false]

/-- Witness for C3 at a concrete invocation with three existing
positional files. -/
theorem C3_witness :
    parse_cmdline (fun _ => true) [] ["a", "b", "c"] =
      ParseResult.ok { defaultParams with
        mdlfile := some "a"
        trnfile := some "b"
        tstfile := some "c" } :=
  C3_positional_assignment_order (fun _ => true) [] defaultParams "a" "b" (some "c")
    rfl rfl rfl (fun s hs => by cases hs; rfl)

/-- C4 counterexample: an invocation supplying -ifmt=csrnv and then
-ifmt=cluto resolves successfully with ifmt equal to CLUTO, not CSR,
refuting the claim as universally stated (readvals does stay 0). -/
theorem C4_counterexample :
    parse_cmdline (fun _ => true) [OptEvent.ifmt "csrnv", OptEvent.ifmt "cluto"] ["a", "b"] =
      ParseResult.ok { defaultParams with
        ifmt := GK_CSR_FMT_CLUTO
        readvals := 0
        mdlfile := some "a"
        trnfile := some "b" }
    ∧ GK_CSR_FMT_CLUTO ≠ GK_CSR_FMT_CSR := ⟨rfl, by decide⟩

/-- C4 amended: in every successful resolution of an invocation that
supplied -ifmt with value csrnv, readvals is 0 (false); and provided
no later -ifmt option follows it, ifmt is plain CSR — never the
distinct METIS marker. -/
theorem C4_csrnv_collapse (fexists : String → Bool) (pre post : List OptEvent)
    (pos : List String) (q : params_t)
    (h : parse_cmdline fexists (pre ++ OptEvent.ifmt "csrnv" :: post) pos =
      ParseResult.ok q) :
    q.readvals = 0 ∧ ((∀ v, OptEvent.ifmt v ∉ post) → q.ifmt = GK_CSR_FMT_CSR) := by
  obtain ⟨pEnd, hloop, hpos⟩ := parse_ok_split h
  obtain ⟨mid, hpre2, hsuf⟩ := optLoop_append_split hloop
  have hstep : applyEvent mid (OptEvent.ifmt "csrnv") =
      Except.ok { mid with ifmt := GK_CSR_FMT_CSR, readvals := 0 } := rfl
  simp only [optLoop] at hsuf
  rw [hstep] at hsuf
  obtain ⟨_, _, _, z2, f2⟩ := optLoop_ok_invariant hsuf
  obtain ⟨bi, br, _, _, _, _⟩ := positionalPhase_ok_base hpos
  refine ⟨?_, fun hni => ?_⟩
  · rw [br]
    exact z2 rfl
  · rw [bi, f2 hni]

/-- Witness for C4 at a concrete invocation supplying -ifmt=csrnv
with no later -ifmt. -/
theorem C4_witness :
    ({ defaultParams with
        ifmt := GK_CSR_FMT_CSR
        readvals := 0
        mdlfile := some "a"
        trnfile := some "b" } : params_t).readvals = 0
    ∧ ({ defaultParams with
        ifmt := GK_CSR_FMT_CSR
        readvals := 0
        mdlfile := some "a"
        trnfile := some "b" } : params_t).ifmt = GK_CSR_FMT_CSR := by
  have h := C4_csrnv_collapse (fun _ => true) [] [] ["a", "b"]
    { defaultParams with
        ifmt := GK_CSR_FMT_CSR
        readvals := 0
        mdlfile := some "a"
        trnfile := some "b" } rfl
  exact ⟨h.1, h.2 (by simp)⟩

/-- C5: with 2 or 3 positional tokens, a token naming a missing file
is fatal with the diagnostic naming that path, the checks run in
order model file, training file, test file, and the result never
depends on the existence of any positional argument after the
failing one. -/
theorem C5_existence_checks_in_order (fexists : String → Bool)
    (events : List OptEvent) (p : params_t) (m t : String) (ts : Option String)
    (hloop : optLoop defaultParams events = Except.ok p) :
    (fexists m = false →
      parse_cmdline fexists events (m :: t :: ts.toList) =
        ParseResult.errExit ("Input model file " ++ m ++ " does not exist.\n"))
    ∧ (fexists m = true → fexists t = false →
      parse_cmdline fexists events (m :: t :: ts.toList) =
        ParseResult.errExit ("Input old file " ++ t ++ " does not exist.\n"))
    ∧ (∀ s, ts = some s → fexists m = true → fexists t = true → fexists s = false →
      parse_cmdline fexists events (m :: t :: ts.toList) =
        ParseResult.errExit ("Input test file " ++ s ++ " does not exist.\n")) := by
  rw [parse_eq_of_optLoop_ok hloop]
  refine ⟨fun hm => ?_, fun hm ht => ?_, fun s hs hm ht hs2 => ?_⟩
  · cases ts with
    | none =>
      show positionalPhase fexists p [m, t] = _
      rw [positionalPhase_two_eq, hm]
      simp
    | some s2 =>
      show positionalPhase fexists p [m, t, s2] = _
      rw [positionalPhase_three_eq, hm]
      simp
  · cases ts with
    | none =>
      show positionalPhase fexists p [m, t] = _
      rw [positionalPhase_two_eq, hm, ht]
      simp
    | some s2 =>
      show positionalPhase fexists p [m, t, s2] = _
      rw [positionalPhase_three_eq, hm, ht]
      simp
  · subst hs
    show positionalPhase fexists p [m, t, s] = _
    rw [positionalPhase_three_eq, hm, ht, hs2]
    simp

/-- Witness for C5: a missing model file is diagnosed without looking
at the later tokens, and a missing training file is diagnosed after
the model file check passes. -/
theorem C5_witness :
    parse_cmdline (fun s => s == "a") [] ["missing", "b", "c"] =
      ParseResult.errExit ("Input model file " ++ "missing" ++ " does not exist.\n")
    ∧ parse_cmdline (fun s => s == "a") [] ["a", "b", "c"] =
      ParseResult.errExit ("Input old file " ++ "b" ++ " does not exist.\n") :=
  ⟨(C5_existence_checks_in_order (fun s => s == "a") [] defaultParams
      "missing" "b" (some "c") rfl).1 rfl,
   (C5_existence_checks_in_order (fun s => s == "a") [] defaultParams
      "a" "b" (some "c") rfl).2.1 rfl rfl⟩

/-- C6: reaching an -ifmt option whose value is none of csr, csrnv,
cluto, ijv terminates resolution as a fatal failure with the
diagnostic naming the supplied value. -/
theorem C6_invalid_ifmt_fatal (fexists : String → Bool) (pre post : List OptEvent)
    (pos : List String) (p : params_t) (v : String)
    (hpre2 : optLoop defaultParams pre = Except.ok p)
    (h1 : v ≠ "csr") (h2 : v ≠ "csrnv") (h3 : v ≠ "cluto") (h4 : v ≠ "ijv") :
    parse_cmdline fexists (pre ++ OptEvent.ifmt v :: post) pos =
      ParseResult.errExit ("Invalid -ifmt of " ++ v ++ ".\n") := by
  have hmiss : gk_GetStringID ifmt_options v = -1 := by
    simp only [ifmt_options, gk_GetStringID]
    rw [if_neg (fun hh => h1 hh.symm), if_neg (fun hh => h2 hh.symm),
        if_neg (fun hh => h3 hh.symm), if_neg (fun hh => h4 hh.symm)]
  have hstep : applyEvent p (OptEvent.ifmt v) =
      Except.error (ParseResult.errExit ("Invalid -ifmt of " ++ v ++ ".\n")) := by
    simp only [applyEvent, hmiss]
    rfl
  apply parse_eq_of_optLoop_error
  rw [optLoop_append_ok _ hpre2]
  simp only [optLoop, hstep]

/-- Witness for C6 with the unrecognized value bogus. -/
theorem C6_witness :
    parse_cmdline (fun _ => true) [OptEvent.ifmt "bogus"] ["a", "b"] =
      ParseResult.errExit ("Invalid -ifmt of " ++ "bogus" ++ ".\n") :=
  C6_invalid_ifmt_fatal (fun _ => true) [] [] ["a", "b"] defaultParams "bogus" rfl
    (by decide) (by decide) (by decide) (by decide)

/-- C7: reaching a -nrcmds or -dbglvl option whose value parses to a
negative integer under atoi terminates resolution as a fatal failure
with the corresponding non-negative-violation diagnostic. -/
theorem C7_negative_numeric_fatal (fexists : String → Bool) (pre post : List OptEvent)
    (pos : List String) (p : params_t) (v : String)
    (hpre2 : optLoop defaultParams pre = Except.ok p) (hneg : atoi v < 0) :
    parse_cmdline fexists (pre ++ OptEvent.nrcmds v :: post) pos =
      ParseResult.errExit "The -nrcmds parameter should be non-negative.\n"
    ∧ parse_cmdline fexists (pre ++ OptEvent.dbglvl v :: post) pos =
      ParseResult.errExit "The -dbglvl parameter should be non-negative.\n" := by
  constructor
  · apply parse_eq_of_optLoop_error
    rw [optLoop_append_ok _ hpre2]
    have hstep : applyEvent p (OptEvent.nrcmds v) = Except.error
        (ParseResult.errExit "The -nrcmds parameter should be non-negative.\n") := by
      simp only [applyEvent]
      rw [if_pos hneg]
    simp only [optLoop, hstep]
  · apply parse_eq_of_optLoop_error
    rw [optLoop_append_ok _ hpre2]
    have hstep : applyEvent p (OptEvent.dbglvl v) = Except.error
        (ParseResult.errExit "The -dbglvl parameter should be non-negative.\n") := by
      simp only [applyEvent]
      rw [if_pos hneg]
    simp only [optLoop, hstep]

/-- Witness for C7 with the value -1 for both options. -/
theorem C7_witness :
    parse_cmdline (fun _ => true) [OptEvent.nrcmds "-1"] ["a", "b"] =
      ParseResult.errExit "The -nrcmds parameter should be non-negative.\n"
    ∧ parse_cmdline (fun _ => true) [OptEvent.dbglvl "-1"] ["a", "b"] =
      ParseResult.errExit "The -dbglvl parameter should be non-negative.\n" :=
  C7_negative_numeric_fatal (fun _ => true) [] [] ["a", "b"] defaultParams "-1"
    rfl (by decide)

/-- C8: once the option loop reaches a CMD_HELP event or the
unknown-option code, the behavior is identical in both cases: the
help text is printed and the process exits with success status,
regardless of the options already parsed, of any later events, and
of the positional tokens — positional processing is never reached. -/
theorem C8_help_and_unknown_short_circuit (fexists : String → Bool)
    (pre post : List OptEvent) (pos : List String) (p : params_t)
    (hpre2 : optLoop defaultParams pre = Except.ok p) :
    parse_cmdline fexists (pre ++ OptEvent.help :: post) pos = ParseResult.helpExit
    ∧ parse_cmdline fexists (pre ++ OptEvent.unknown :: post) pos = ParseResult.helpExit := by
  constructor
  · apply parse_eq_of_optLoop_error
    rw [optLoop_append_ok _ hpre2]
    rfl
  · apply parse_eq_of_optLoop_error
    rw [optLoop_append_ok _ hpre2]
    rfl

/-- Witness for C8: after a parsed -binarize option and with a bad
positional count, -help and an unknown option both exit through the
help path. -/
theorem C8_witness :
    parse_cmdline (fun _ => true) [OptEvent.binarize, OptEvent.help] ["a"] =
      ParseResult.helpExit
    ∧ parse_cmdline (fun _ => true) [OptEvent.binarize, OptEvent.unknown] ["a"] =
      ParseResult.helpExit :=
  C8_help_and_unknown_short_circuit (fun _ => true) [OptEvent.binarize] [] ["a"]
    { defaultParams with binarize := 1 } rfl

/-- C9: a successful invocation that used none of the five
configuration options resolves to the defaults: ifmt CSR, readvals
1 (true), binarize 0, nrcmds 10, dbglvl 0, outfile absent; with only
two positional tokens tstfile also stays absent. -/
theorem C9_defaults (fexists : String → Bool) (events : List OptEvent)
    (pos : List String) (q : params_t)
    (homit : ∀ e ∈ events, e = OptEvent.help ∨ e = OptEvent.unknown ∨
      ∃ v, e = OptEvent.illegal v)
    (h : parse_cmdline fexists events pos = ParseResult.ok q) :
    q.ifmt = GK_CSR_FMT_CSR ∧ q.readvals = 1 ∧ q.binarize = 0 ∧ q.nrcmds = 10 ∧
    q.dbglvl = 0 ∧ q.outfile = none ∧ (pos.length = 2 → q.tstfile = none) := by
  cases events with
  | cons e es =>
    exfalso
    obtain ⟨pEnd, hloop, _⟩ := parse_ok_split h
    rcases homit e (List.mem_cons_self e es) with he | he | ⟨v, he⟩ <;>
      subst he <;> simp [optLoop, applyEvent] at hloop
  | nil =>
    obtain ⟨pEnd, hloop, hpos⟩ := parse_ok_split h
    simp only [optLoop, Except.ok.injEq] at hloop
    subst hloop
    obtain ⟨bi, br, bb, bn, bd, bo⟩ := positionalPhase_ok_base hpos
    exact ⟨bi, br, bb, bn, bd, bo, fun h2 => positionalPhase_ok_two h2 hpos⟩

/-- Witness for C9 at a concrete option-free invocation with two
existing positional files. -/
theorem C9_witness :
    ({ defaultParams with mdlfile := some "a", trnfile := some "b" } : params_t).ifmt =
      GK_CSR_FMT_CSR
    ∧ ({ defaultParams with mdlfile := some "a", trnfile := some "b" } : params_t).readvals = 1
    ∧ ({ defaultParams with mdlfile := some "a", trnfile := some "b" } : params_t).binarize = 0
    ∧ ({ defaultParams with mdlfile := some "a", trnfile := some "b" } : params_t).nrcmds = 10
    ∧ ({ defaultParams with mdlfile := some "a", trnfile := some "b" } : params_t).dbglvl = 0
    ∧ ({ defaultParams with mdlfile := some "a", trnfile := some "b" } : params_t).outfile = none
    ∧ ({ defaultParams with mdlfile := some "a", trnfile := some "b" } : params_t).tstfile = none := by
  have h := C9_defaults (fun _ => true) [] ["a", "b"]
    { defaultParams with mdlfile := some "a", trnfile := some "b" } (by simp) rfl
  exact ⟨h.1, h.2.1, h.2.2.1, h.2.2.2.1, h.2.2.2.2.1, h.2.2.2.2.2.1,
    h.2.2.2.2.2.2 rfl⟩

/-- C10: a -nrcmds or -dbglvl value containing no decimal digit (for
example non-numeric text) converts to 0 under atoi semantics; 0 is
not negative, so resolution does not fail there and the field is
silently set to 0 rather than the option being rejected. -/
theorem C10_atoi_nonnumeric_zero (pre : List OptEvent) (p : params_t) (v : String)
    (hpre2 : optLoop defaultParams pre = Except.ok p)
    (hv : ∀ c ∈ v.toList, c.isDigit = false) :
    atoi v = 0
    ∧ optLoop defaultParams (pre ++ [OptEvent.nrcmds v]) =
        Except.ok { p with nrcmds := 0 }
    ∧ optLoop defaultParams (pre ++ [OptEvent.dbglvl v]) =
        Except.ok { p with dbglvl := 0 } := by
  have hz : atoi v = 0 := atoi_no_digit hv
  refine ⟨hz, ?_, ?_⟩
  · rw [optLoop_append_ok _ hpre2]
    have hstep : applyEvent p (OptEvent.nrcmds v) =
        Except.ok { p with nrcmds := 0 } := by
      simp only [applyEvent, hz]
      rfl
    simp only [optLoop, hstep]
  · rw [optLoop_append_ok _ hpre2]
    have hstep : applyEvent p (OptEvent.dbglvl v) =
        Except.ok { p with dbglvl := 0 } := by
      simp only [applyEvent, hz]
      rfl
    simp only [optLoop, hstep]

/-- Witness for C10 with the non-numeric value abc. -/
theorem C10_witness :
    atoi "abc" = 0
    ∧ optLoop defaultParams [OptEvent.nrcmds "abc"] =
        Except.ok { defaultParams with nrcmds := 0 }
    ∧ optLoop defaultParams [OptEvent.dbglvl "abc"] =
        Except.ok { defaultParams with dbglvl := 0 } :=
  C10_atoi_nonnumeric_zero [] defaultParams "abc" rfl (by decide)
